import Mathlib

/-!
Verification of the secret-aware configuration merge engine and the process
supervisor of `server.py` (picoclaw-docker), via a shallow embedding.
Configuration documents are JSON-like trees; Python dicts are modelled as
association sequences in insertion order (Python dicts have unique keys and
preserve insertion order), Python strings as `String`, numbers as `Int`.
-/

namespace Picoclaw

mutual

/-- JSON-like configuration values as stored and exchanged by `server.py`. -/
inductive JValue where
  | str (s : String)
  | num (n : Int)
  | float (lit : String)
  | bool (b : Bool)
  | null
  | arr (items : JList)
  | obj (entries : JObj)
deriving DecidableEq, Repr

/-- A JSON array: a sequence of values. -/
inductive JList where
  | nil
  | cons (head : JValue) (tail : JList)
deriving DecidableEq, Repr

/-- A Python dict: key/value pairs in insertion order. -/
inductive JObj where
  | nil
  | cons (key : String) (val : JValue) (tail : JObj)
deriving DecidableEq, Repr

end

/-- `d.get(k)` on a Python dict: the value at the (unique) key `k`,
if present. -/
def JObj.get : JObj → String → Option JValue
  | .nil, _ => none
  | .cons k v rest, key => if k = key then some v else rest.get key

/-- The keys of a dict, in insertion order. -/
def JObj.keys : JObj → List String
  | .nil => []
  | .cons k _ rest => k :: rest.keys

/-- The `SECRET_FIELDS` constant of `server.py`. -/
def SECRET_FIELDS : List String :=
  ["api_key", "token", "app_secret", "encrypt_key",
   "verification_token", "bot_token", "app_token",
   "channel_secret", "channel_access_token", "client_secret"]

/-- The masking rule applied to a secret string:
`v[:8] + "***" if len(v) > 8 else "***"`. -/
def maskValue (s : String) : String :=
  if s.length > 8 then s.take 8 ++ "***" else "***"

mutual

/-- `mask_secrets` from `server.py`: dicts are rebuilt entry by entry,
masking secret-keyed non-empty string values; lists are walked
element-wise; every other value is returned as is. -/
def mask_secrets : JValue → JValue
  | .obj kvs => .obj (maskEntries kvs)
  | .arr xs => .arr (maskList xs)
  | v => v

/-- The dict loop of `mask_secrets` (`for k, v in data.items()`). -/
def maskEntries : JObj → JObj
  | .nil => .nil
  | .cons k (.str s) rest =>
      .cons k (if k ∈ SECRET_FIELDS ∧ s ≠ "" then .str (maskValue s) else .str s)
        (maskEntries rest)
  | .cons k v rest => .cons k (mask_secrets v) (maskEntries rest)

/-- The list branch of `mask_secrets`. -/
def maskList : JList → JList
  | .nil => .nil
  | .cons x rest => .cons (mask_secrets x) (maskList rest)

end

/-- Python's `s.endswith(pat)`: `pat` is a suffix of `s`. -/
def pyEndsWith (s pat : String) : Bool := pat.data.isSuffixOf s.data

/-- The masked-placeholder test of `merge_secrets`:
`isinstance(v, str) and (v.endswith("***") or v == "")`. -/
def maskedLike : JValue → Bool
  | .str s => pyEndsWith s "***" || s == ""
  | _ => false

mutual

/-- `merge_secrets` from `server.py`: when both arguments are dicts the
result is rebuilt from the incoming dict's entries, substituting the
existing value (default `""`) for secret-keyed masked-looking strings and
recursing (with default `{}`) everywhere else; otherwise the incoming
value is returned verbatim. -/
def merge_secrets : JValue → JValue → JValue
  | .obj nkvs, .obj ekvs => .obj (mergeEntries nkvs ekvs)
  | n, _ => n

/-- The dict loop of `merge_secrets` (`for k, v in new_data.items()`). -/
def mergeEntries : JObj → JObj → JObj
  | .nil, _ => .nil
  | .cons k v rest, ekvs =>
      .cons k
        (if k ∈ SECRET_FIELDS ∧ maskedLike v then (ekvs.get k).getD (.str "")
         else merge_secrets v ((ekvs.get k).getD (.obj .nil)))
        (mergeEntries rest ekvs)

end

/-- Build a dict from a list of key/value pairs (insertion order). -/
def JObj.ofList : List (String × JValue) → JObj
  | [] => .nil
  | (k, v) :: rest => .cons k v (JObj.ofList rest)

/-- Build an array from a list of values. -/
def JList.ofList : List JValue → JList
  | [] => .nil
  | x :: rest => .cons x (JList.ofList rest)

/-- Follow a key path through nested dicts. -/
def getPath : JValue → List String → Option JValue
  | v, [] => some v
  | .obj kvs, k :: ks =>
      match kvs.get k with
      | some v => getPath v ks
      | none => none
  | _, _ :: _ => none

/-- The child of an optional existing node at key `k`; `none` when the
node is absent or not a dict. -/
def childAt (e : Option JValue) (k : String) : Option JValue :=
  match e with
  | some (.obj kvs) => kvs.get k
  | _ => none

/-- The spec's wording of the masking rule: the literal marker `***` when
the value length is at most 8, the first 8 characters followed by `***`
when the length exceeds 8. -/
def specMaskValue (s : String) : String :=
  if s.length ≤ 8 then "***" else s.take 8 ++ "***"

mutual

/-- Stated from the spec's words, for comparison with `mask_secrets`:
replace the value of every dict entry whose key is in the secret-field
set and whose value is a non-empty string per `specMaskValue`; walk lists
element-wise; pass every other node through. -/
def specMask : JValue → JValue
  | .obj kvs => .obj (specMaskEntries kvs)
  | .arr xs => .arr (specMaskList xs)
  | v => v

/-- Entry-wise form of `specMask` on dicts. -/
def specMaskEntries : JObj → JObj
  | .nil => .nil
  | .cons k v rest =>
      .cons k
        (match v with
         | .str s => if k ∈ SECRET_FIELDS ∧ s ≠ "" then .str (specMaskValue s) else .str s
         | _ => specMask v)
        (specMaskEntries rest)

/-- Element-wise form of `specMask` on arrays. -/
def specMaskList : JList → JList
  | .nil => .nil
  | .cons x rest => .cons (specMask x) (specMaskList rest)

end

mutual

/-- Stated from the spec's words, for comparison with `merge_secrets`:
replace each secret-keyed masked-looking leaf of the incoming document
with the existing document's value at the same path (the empty string
when absent there), recurse through dict entries, and reproduce the
incoming document's other data. -/
def specMerge : JValue → Option JValue → JValue
  | .obj kvs, e => .obj (specMergeEntries kvs e)
  | v, _ => v

/-- Entry-wise form of `specMerge` on dicts. -/
def specMergeEntries : JObj → Option JValue → JObj
  | .nil, _ => .nil
  | .cons k v rest, e =>
      .cons k
        (if k ∈ SECRET_FIELDS ∧ maskedLike v then (childAt e k).getD (.str "")
         else specMerge v (childAt e k))
        (specMergeEntries rest e)

end

mutual

/-- Structural compatibility of an incoming document with an existing
one: wherever the incoming document has a dict, the existing document's
value at the same path, if present, is also a dict. -/
def compat : JValue → JValue → Bool
  | .obj kvs, .obj ekvs => compatEntries kvs ekvs
  | .obj _, _ => false
  | _, _ => true

/-- Entry-wise form of `compat`. -/
def compatEntries : JObj → JObj → Bool
  | .nil, _ => true
  | .cons k v rest, ekvs =>
      (match ekvs.get k with
       | some ev => compat v ev
       | none => true) && compatEntries rest ekvs

end

mutual

/-- Every dict entry anywhere in the document whose key is in the
secret-field set has a string value that is empty or ends in `***`. -/
def maskedOK : JValue → Bool
  | .obj kvs => maskedOKEntries kvs
  | .arr xs => maskedOKList xs
  | _ => true

/-- Entry-wise form of `maskedOK`. -/
def maskedOKEntries : JObj → Bool
  | .nil => true
  | .cons k v rest =>
      (if k ∈ SECRET_FIELDS then maskedLike v else true) && maskedOK v &&
        maskedOKEntries rest

/-- Element-wise form of `maskedOK`. -/
def maskedOKList : JList → Bool
  | .nil => true
  | .cons x rest => maskedOK x && maskedOKList rest

end

/-- `default_config()` from `server.py`. Python float literals are carried
as opaque decimal literals (`mask_secrets`/`merge_secrets` never inspect
numbers). -/
def default_config : JValue :=
  .obj (.ofList [
    ("agents", .obj (.ofList [
      ("defaults", .obj (.ofList [
        ("workspace", .str "~/.picoclaw/workspace"),
        ("restrict_to_workspace", .bool true),
        ("provider", .str ""),
        ("model", .str "glm-4.7"),
        ("max_tokens", .num 8192),
        ("temperature", .float "0.7"),
        ("max_tool_iterations", .num 20)]))])),
    ("channels", .obj (.ofList [
      ("telegram", .obj (.ofList [
        ("enabled", .bool false), ("token", .str ""), ("proxy", .str ""),
        ("allow_from", .arr .nil)])),
      ("discord", .obj (.ofList [
        ("enabled", .bool false), ("token", .str ""), ("allow_from", .arr .nil)])),
      ("slack", .obj (.ofList [
        ("enabled", .bool false), ("bot_token", .str ""), ("app_token", .str ""),
        ("allow_from", .arr .nil)])),
      ("whatsapp", .obj (.ofList [
        ("enabled", .bool false), ("bridge_url", .str "ws://localhost:3001"),
        ("allow_from", .arr .nil)])),
      ("feishu", .obj (.ofList [
        ("enabled", .bool false), ("app_id", .str ""), ("app_secret", .str ""),
        ("encrypt_key", .str ""), ("verification_token", .str ""),
        ("allow_from", .arr .nil)])),
      ("dingtalk", .obj (.ofList [
        ("enabled", .bool false), ("client_id", .str ""), ("client_secret", .str ""),
        ("allow_from", .arr .nil)])),
      ("qq", .obj (.ofList [
        ("enabled", .bool false), ("app_id", .str ""), ("app_secret", .str ""),
        ("allow_from", .arr .nil)])),
      ("line", .obj (.ofList [
        ("enabled", .bool false), ("channel_secret", .str ""),
        ("channel_access_token", .str ""), ("webhook_host", .str "0.0.0.0"),
        ("webhook_port", .num 18791), ("webhook_path", .str "/webhook/line"),
        ("allow_from", .arr .nil)])),
      ("maixcam", .obj (.ofList [
        ("enabled", .bool false), ("host", .str "0.0.0.0"), ("port", .num 18790),
        ("allow_from", .arr .nil)]))])),
    ("providers", .obj (.ofList [
      ("anthropic", .obj (.ofList [("api_key", .str "")])),
      ("openai", .obj (.ofList [("api_key", .str ""), ("api_base", .str "")])),
      ("openrouter", .obj (.ofList [("api_key", .str "")])),
      ("deepseek", .obj (.ofList [("api_key", .str "")])),
      ("groq", .obj (.ofList [("api_key", .str "")])),
      ("gemini", .obj (.ofList [("api_key", .str "")])),
      ("zhipu", .obj (.ofList [("api_key", .str ""), ("api_base", .str "")])),
      ("vllm", .obj (.ofList [("api_key", .str ""), ("api_base", .str "")])),
      ("nvidia", .obj (.ofList [("api_key", .str ""), ("api_base", .str "")])),
      ("moonshot", .obj (.ofList [("api_key", .str "")]))])),
    ("gateway", .obj (.ofList [("host", .str "0.0.0.0"), ("port", .num 18790)])),
    ("tools", .obj (.ofList [
      ("web", .obj (.ofList [
        ("brave", .obj (.ofList [
          ("enabled", .bool false), ("api_key", .str ""), ("max_results", .num 5)])),
        ("duckduckgo", .obj (.ofList [
          ("enabled", .bool true), ("max_results", .num 5)]))]))])),
    ("heartbeat", .obj (.ofList [("enabled", .bool true), ("interval", .num 30)])),
    ("devices", .obj (.ofList [("enabled", .bool false), ("monitor_usb", .bool false)]))])

/-- A child process handle as `asyncio` exposes it: a pid and a
`returncode` that is `none` while the process is alive. -/
structure Process where
  pid : Nat
  returncode : Option Int
deriving DecidableEq, Repr

/-- `deque(maxlen=cap).append(line)`: append on the right, evicting from
the left once the capacity is exceeded. -/
def dequeAppend (cap : Nat) (logs : List String) (line : String) : List String :=
  if cap < (logs ++ [line]).length then
    (logs ++ [line]).drop ((logs ++ [line]).length - cap)
  else logs ++ [line]

/-- Appending a sequence of lines one by one to a capacity-500 buffer. -/
def appendAll : List String → List String → List String
  | logs, [] => logs
  | logs, line :: rest => appendAll (dequeAppend 500 logs line) rest

/-- The supervisor record built by `GatewayManager.__init__`. Time values
are whole time units (`time.time()` is positive). -/
structure GatewayManager where
  process : Option Process
  state : String
  logs : List String
  start_time : Option Nat
  restart_count : Nat
deriving DecidableEq, Repr

/-- The freshly constructed supervisor. -/
def GatewayManager.initial : GatewayManager :=
  { process := none, state := "stopped", logs := [], start_time := none,
    restart_count := 0 }

/-- The liveness guard `self.process and self.process.returncode is None`. -/
def isLive : Option Process → Bool
  | some p => p.returncode == none
  | none => false

/-- The outcome of `asyncio.create_subprocess_exec`: a process handle, or
an exception message (e.g. the binary does not exist). -/
inductive SpawnResult where
  | ok (p : Process)
  | err (msg : String)
deriving DecidableEq, Repr

/-- `GatewayManager.start`, with the spawn outcome and the current time
passed as parameters: a no-op when a live process exists; otherwise the
state passes through `"starting"` and on success records the handle, the
`"running"` state and the start time, while on failure records the
`"error"` state and a failure log line (the process field is unchanged by
the failed assignment). -/
def GatewayManager.start (g : GatewayManager) (spawn : SpawnResult) (now : Nat) :
    GatewayManager :=
  if isLive g.process then g
  else
    match spawn with
    | .ok p => { g with process := some p, state := "running", start_time := some now }
    | .err msg =>
        { g with state := "error",
                 logs := dequeAppend 500 g.logs ("Failed to start gateway: " ++ msg) }

/-- `GatewayManager.stop`, with the child's exit code passed as a
parameter: with no live process it just sets the state to `"stopped"`;
otherwise it terminates (escalating to kill on timeout), after which the
handle carries an exit code, the state is `"stopped"` and the start time
is cleared. -/
def GatewayManager.stop (g : GatewayManager) (rc : Int) : GatewayManager :=
  if isLive g.process then
    { g with state := "stopped", start_time := none,
             process := g.process.map fun p => { p with returncode := some rc } }
  else
    { g with state := "stopped" }

/-- `GatewayManager.restart`: `stop`, increment the restart counter, then
`start`. -/
def GatewayManager.restart (g : GatewayManager) (rc : Int) (spawn : SpawnResult)
    (now : Nat) : GatewayManager :=
  let g1 := g.stop rc
  let g2 := { g1 with restart_count := g1.restart_count + 1 }
  g2.start spawn now

/-- The snapshot returned by `GatewayManager.get_status`. -/
structure Status where
  state : String
  pid : Option Nat
  uptime : Option Nat
  restart_count : Nat
deriving DecidableEq, Repr

/-- `GatewayManager.get_status`: pid only for a live handle; uptime only
while `"running"` with a truthy (nonzero) start time. -/
def GatewayManager.get_status (g : GatewayManager) (now : Nat) : Status :=
  { state := g.state
  , pid :=
      match g.process with
      | some p => if p.returncode = none then some p.pid else none
      | none => none
  , uptime :=
      match g.start_time with
      | some t => if t ≠ 0 ∧ g.state = "running" then some (now - t) else none
      | none => none
  , restart_count := g.restart_count }

/-- Program counter of one `start()` coroutine on the event loop: about to
run the guard check, suspended at `await create_subprocess_exec`, or
finished. -/
inductive StartPC where
  | atGuard
  | awaitingSpawn
  | finished
deriving DecidableEq, Repr

/-- Identifies one of two concurrent `start()` invocations. -/
inductive TaskId where
  | A
  | B
deriving DecidableEq, Repr

/-- Shared-state world for two concurrent `start()` invocations against
the single supervisor: the manager, each coroutine's program counter, and
the children actually created so far by the spawn primitive. -/
structure StartRace where
  g : GatewayManager
  pcA : StartPC
  pcB : StartPC
  spawned : List Process
deriving DecidableEq, Repr

/-- The program counter of task `t`. -/
def StartRace.pcOf (w : StartRace) : TaskId → StartPC
  | .A => w.pcA
  | .B => w.pcB

/-- Set the program counter of task `t`. -/
def StartRace.setPC (w : StartRace) : TaskId → StartPC → StartRace
  | .A, pc => { w with pcA := pc }
  | .B, pc => { w with pcB := pc }

/-- One atomic segment of `start()` run by task `t` on the single-threaded
event loop. From the guard: return immediately when a live process
exists, else set state to `"starting"` and suspend at
`await create_subprocess_exec`. From the suspension: the spawn has
completed, so a new child `p` exists; the coroutine resumes, records the
handle, the `"running"` state and the start time. Each segment is
straight-line code with no await inside it. -/
def stepStart (w : StartRace) (t : TaskId) (p : Process) (now : Nat) : StartRace :=
  match w.pcOf t with
  | .atGuard =>
      if isLive w.g.process then w.setPC t .finished
      else ({ w with g := { w.g with state := "starting" } }).setPC t .awaitingSpawn
  | .awaitingSpawn =>
      ({ w with
          g := { w.g with process := some p, state := "running", start_time := some now },
          spawned := w.spawned ++ [p] }).setPC t .finished
  | .finished => w

/-- Run a schedule of atomic segments. -/
def runRace (w : StartRace) : List (TaskId × Process × Nat) → StartRace
  | [] => w
  | (t, p, now) :: rest => runRace (stepStart w t p now) rest



theorem string_length_append (s t : String) : (s ++ t).length = s.length + t.length := by
  rw [String.length, String.length, String.length, String.data_append, List.length_append]

theorem string_length_take8 (s : String) (h : 8 < s.length) : (s.take 8).length = 8 := by
  rw [String.length, String.data_take, List.length_take]
  rw [String.length] at h
  omega

theorem take8_append_stars (x : String) (h : x.length = 8) : (x ++ "***").take 8 = x := by
  apply String.ext
  rw [String.data_take, String.data_append]
  rw [String.length] at h
  rw [List.take_append_of_le_length (by omega)]
  exact List.take_of_length_le (by omega)

theorem maskValue_eq_of_gt (s : String) (h : 8 < s.length) :
    maskValue s = s.take 8 ++ "***" := by
  rw [maskValue, if_pos h]

theorem maskValue_eq_of_le (s : String) (h : ¬ 8 < s.length) : maskValue s = "***" := by
  rw [maskValue, if_neg h]

theorem maskValue_ne_empty (s : String) : maskValue s ≠ "" := by
  by_cases h : 8 < s.length
  · rw [maskValue_eq_of_gt s h]
    intro hc
    have h3 := string_length_append (s.take 8) "***"
    rw [hc] at h3
    rw [string_length_take8 s h] at h3
    exact absurd h3 (by decide)
  · rw [maskValue_eq_of_le s h]
    decide

theorem maskValue_idem (s : String) : maskValue (maskValue s) = maskValue s := by
  by_cases h : 8 < s.length
  · have hlen : (s.take 8).length = 8 := string_length_take8 s h
    have h2 : (s.take 8 ++ "***").length = 11 := by
      rw [string_length_append, hlen]
      rfl
    have h3 : (s.take 8 ++ "***").take 8 = s.take 8 := take8_append_stars _ hlen
    rw [maskValue_eq_of_gt s h, maskValue_eq_of_gt _ (by rw [h2]; omega), h3,
      ← maskValue_eq_of_gt s h]
  · rw [maskValue_eq_of_le s h, maskValue_eq_of_le "***" (by decide)]


mutual

theorem mask_secrets_idem : ∀ d, mask_secrets (mask_secrets d) = mask_secrets d
  | .obj kvs => by
      simp only [mask_secrets]
      rw [maskEntries_idem kvs]
  | .arr xs => by
      simp only [mask_secrets]
      rw [maskList_idem xs]
  | .str _ => rfl
  | .num _ => rfl
  | .float _ => rfl
  | .bool _ => rfl
  | .null => rfl

theorem maskEntries_idem : ∀ kvs, maskEntries (maskEntries kvs) = maskEntries kvs
  | .nil => rfl
  | .cons k (.str s) rest => by
      by_cases h : k ∈ SECRET_FIELDS ∧ s ≠ ""
      · have h' : k ∈ SECRET_FIELDS ∧ maskValue s ≠ "" := ⟨h.1, maskValue_ne_empty s⟩
        simp only [maskEntries, if_pos h, if_pos h', maskValue_idem s,
          maskEntries_idem rest]
      · simp only [maskEntries, if_neg h, maskEntries_idem rest]
  | .cons k (.num n) rest => by
      simp only [maskEntries, mask_secrets, maskEntries_idem rest]
  | .cons k (.float l) rest => by
      simp only [maskEntries, mask_secrets, maskEntries_idem rest]
  | .cons k (.bool b) rest => by
      simp only [maskEntries, mask_secrets, maskEntries_idem rest]
  | .cons k .null rest => by
      simp only [maskEntries, mask_secrets, maskEntries_idem rest]
  | .cons k (.arr xs) rest => by
      simp only [maskEntries, mask_secrets, maskList_idem xs, maskEntries_idem rest]
  | .cons k (.obj kvs2) rest => by
      simp only [maskEntries, mask_secrets, maskEntries_idem kvs2, maskEntries_idem rest]

theorem maskList_idem : ∀ xs, maskList (maskList xs) = maskList xs
  | .nil => rfl
  | .cons x rest => by
      simp only [maskList, mask_secrets_idem x, maskList_idem rest]

end


theorem maskValue_eq_specMaskValue (s : String) : maskValue s = specMaskValue s := by
  rw [maskValue, specMaskValue]
  by_cases h : 8 < s.length
  · rw [if_pos h, if_neg (by omega)]
  · rw [if_neg h, if_pos (by omega)]

mutual

theorem mask_secrets_eq_specMask : ∀ d, mask_secrets d = specMask d
  | .obj kvs => by
      simp only [mask_secrets, specMask]
      rw [maskEntries_eq_specMaskEntries kvs]
  | .arr xs => by
      simp only [mask_secrets, specMask]
      rw [maskList_eq_specMaskList xs]
  | .str _ => rfl
  | .num _ => rfl
  | .float _ => rfl
  | .bool _ => rfl
  | .null => rfl

theorem maskEntries_eq_specMaskEntries : ∀ kvs, maskEntries kvs = specMaskEntries kvs
  | .nil => rfl
  | .cons k (.str s) rest => by
      simp only [maskEntries, specMaskEntries, maskValue_eq_specMaskValue,
        maskEntries_eq_specMaskEntries rest]
  | .cons k (.num n) rest => by
      simp only [maskEntries, specMaskEntries, mask_secrets_eq_specMask (JValue.num n),
        maskEntries_eq_specMaskEntries rest]
  | .cons k (.float l) rest => by
      simp only [maskEntries, specMaskEntries, mask_secrets_eq_specMask (JValue.float l),
        maskEntries_eq_specMaskEntries rest]
  | .cons k (.bool b) rest => by
      simp only [maskEntries, specMaskEntries, mask_secrets_eq_specMask (JValue.bool b),
        maskEntries_eq_specMaskEntries rest]
  | .cons k .null rest => by
      simp only [maskEntries, specMaskEntries, mask_secrets_eq_specMask JValue.null,
        maskEntries_eq_specMaskEntries rest]
  | .cons k (.arr xs) rest => by
      simp only [maskEntries, specMaskEntries, mask_secrets_eq_specMask (JValue.arr xs),
        maskEntries_eq_specMaskEntries rest]
  | .cons k (.obj kvs2) rest => by
      simp only [maskEntries, specMaskEntries, mask_secrets_eq_specMask (JValue.obj kvs2),
        maskEntries_eq_specMaskEntries rest]

theorem maskList_eq_specMaskList : ∀ xs, maskList xs = specMaskList xs
  | .nil => rfl
  | .cons x rest => by
      simp only [maskList, specMaskList, mask_secrets_eq_specMask x,
        maskList_eq_specMaskList rest]

end


mutual

theorem merge_nil_eq_spec_none : ∀ n, merge_secrets n (.obj .nil) = specMerge n none
  | .obj kvs => by
      simp only [merge_secrets, specMerge]
      rw [mergeEntries_nil_eq_spec_none kvs]
  | .str _ => rfl
  | .num _ => rfl
  | .float _ => rfl
  | .bool _ => rfl
  | .null => rfl
  | .arr _ => rfl

theorem mergeEntries_nil_eq_spec_none :
    ∀ kvs, mergeEntries kvs .nil = specMergeEntries kvs none
  | .nil => rfl
  | .cons k v rest => by
      simp only [mergeEntries, specMergeEntries, JObj.get, childAt, Option.getD]
      by_cases h : k ∈ SECRET_FIELDS ∧ maskedLike v
      · simp only [if_pos h, mergeEntries_nil_eq_spec_none rest]
      · simp only [if_neg h, merge_nil_eq_spec_none v, mergeEntries_nil_eq_spec_none rest]

end

mutual

theorem merge_eq_specMerge : ∀ n e, compat n e = true → merge_secrets n e = specMerge n (some e)
  | .obj kvs, .obj ekvs, h => by
      simp only [merge_secrets, specMerge]
      exact congrArg JValue.obj (mergeEntries_eq_spec kvs ekvs (by
        simpa only [compat] using h))
  | .obj _, .str _, h => by simp only [compat] at h; exact Bool.noConfusion h
  | .obj _, .num _, h => by simp only [compat] at h; exact Bool.noConfusion h
  | .obj _, .float _, h => by simp only [compat] at h; exact Bool.noConfusion h
  | .obj _, .bool _, h => by simp only [compat] at h; exact Bool.noConfusion h
  | .obj _, .null, h => by simp only [compat] at h; exact Bool.noConfusion h
  | .obj _, .arr _, h => by simp only [compat] at h; exact Bool.noConfusion h
  | .str _, _, _ => rfl
  | .num _, _, _ => rfl
  | .float _, _, _ => rfl
  | .bool _, _, _ => rfl
  | .null, _, _ => rfl
  | .arr _, _, _ => rfl

theorem mergeEntries_eq_spec : ∀ kvs ekvs, compatEntries kvs ekvs = true →
    mergeEntries kvs ekvs = specMergeEntries kvs (some (.obj ekvs))
  | .nil, _, _ => rfl
  | .cons k v rest, ekvs, h => by
      have hsplit := h
      simp only [compatEntries, Bool.and_eq_true] at hsplit
      have hrest : compatEntries rest ekvs = true := hsplit.2
      simp only [mergeEntries, specMergeEntries, childAt]
      by_cases hs : k ∈ SECRET_FIELDS ∧ maskedLike v
      · simp only [if_pos hs, mergeEntries_eq_spec rest ekvs hrest]
      · simp only [if_neg hs, mergeEntries_eq_spec rest ekvs hrest]
        cases hget : ekvs.get k with
        | some ev =>
            have hc : compat v ev = true := by
              have := hsplit.1
              rw [hget] at this
              exact this
            simp only [Option.getD]
            rw [merge_eq_specMerge v ev hc]
        | none =>
            simp only [Option.getD]
            rw [merge_nil_eq_spec_none v]

end


theorem mergeEntries_keys : ∀ nkvs ekvs : JObj, (mergeEntries nkvs ekvs).keys = nkvs.keys
  | .nil, _ => rfl
  | .cons k v rest, ekvs => by
      simp only [mergeEntries, JObj.keys]
      by_cases h : k ∈ SECRET_FIELDS ∧ maskedLike v
      · simp only [if_pos h, JObj.keys, mergeEntries_keys rest ekvs]
      · simp only [if_neg h, JObj.keys, mergeEntries_keys rest ekvs]

theorem mergeEntries_get : ∀ (nkvs ekvs : JObj) (key : String),
    (mergeEntries nkvs ekvs).get key =
      (nkvs.get key).map fun v =>
        if key ∈ SECRET_FIELDS ∧ maskedLike v then (ekvs.get key).getD (.str "")
        else merge_secrets v ((ekvs.get key).getD (.obj .nil))
  | .nil, _, _ => rfl
  | .cons k v rest, ekvs, key => by
      by_cases hk : k = key
      · subst hk
        by_cases h : k ∈ SECRET_FIELDS ∧ maskedLike v
        · simp [mergeEntries, JObj.get, h]
        · simp [mergeEntries, JObj.get, h]
      · by_cases h : k ∈ SECRET_FIELDS ∧ maskedLike v
        · simp only [mergeEntries, if_pos h, JObj.get, if_neg hk,
            mergeEntries_get rest ekvs key]
        · simp only [mergeEntries, if_neg h, JObj.get, if_neg hk,
            mergeEntries_get rest ekvs key]

/-- A value that is a Python dict. -/
def isObjV : JValue → Bool
  | .obj _ => true
  | _ => false

/-- A value that is a Python string. -/
def isStrV : JValue → Bool
  | .str _ => true
  | _ => false

theorem merge_secrets_nonobj (n e : JValue) (h : isObjV n = false) :
    merge_secrets n e = n := by
  cases n with
  | obj kvs => exact Bool.noConfusion h
  | str s => rfl
  | num x => rfl
  | float l => rfl
  | bool b => rfl
  | null => rfl
  | arr xs => rfl

theorem maskedLike_of_nonstr (v : JValue) (h : isStrV v = false) :
    maskedLike v = false := by
  cases v with
  | str s => exact Bool.noConfusion h
  | num x => rfl
  | float l => rfl
  | bool b => rfl
  | null => rfl
  | arr xs => rfl
  | obj kvs => rfl


theorem dequeAppend_length_le (logs : List String) (line : String)
    (h : logs.length ≤ 500) : (dequeAppend 500 logs line).length ≤ 500 := by
  unfold dequeAppend
  have hl : (logs ++ [line]).length = logs.length + 1 := by simp
  split
  · rw [List.length_drop]
    omega
  · rename_i hc
    omega

theorem appendAll_eq_drop : ∀ (lines logs : List String), logs.length ≤ 500 →
    appendAll logs lines = (logs ++ lines).drop ((logs ++ lines).length - 500)
  | [], logs, h => by
      rw [appendAll, List.append_nil, Nat.sub_eq_zero_of_le h, List.drop_zero]
  | line :: rest, logs, h => by
      rw [appendAll]
      have hl : (logs ++ [line]).length = logs.length + 1 := by simp
      by_cases hc : logs.length < 500
      · have hnc : ¬ 500 < (logs ++ [line]).length := by omega
        have hd : dequeAppend 500 logs line = logs ++ [line] := by
          unfold dequeAppend
          rw [if_neg hnc]
        rw [hd, appendAll_eq_drop rest (logs ++ [line]) (by omega)]
        rw [List.append_assoc, List.singleton_append]
      · have heq : (logs ++ [line]).length - 500 = 1 := by omega
        have hcc : 500 < (logs ++ [line]).length := by omega
        have hd : dequeAppend 500 logs line = (logs ++ [line]).drop 1 := by
          unfold dequeAppend
          rw [if_pos hcc, heq]
        have hlen2 : ((logs ++ [line]).drop 1).length = 500 := by
          rw [List.length_drop]; omega
        rw [hd, appendAll_eq_drop rest _ (le_of_eq hlen2)]
        have hsplit : (logs ++ [line]).drop 1 ++ rest = ((logs ++ [line]) ++ rest).drop 1 :=
          (List.drop_append_of_le_length (by omega)).symm
        have h1 : (logs ++ line :: rest) = (logs ++ [line]) ++ rest := by
          rw [List.append_assoc, List.singleton_append]
        rw [hsplit, List.drop_drop, h1]
        have hA : 1 + ((((logs ++ [line]) ++ rest).drop 1).length - 500)
            = ((logs ++ [line]) ++ rest).length - 500 := by
          simp only [List.length_drop, List.length_append, List.length_cons,
            List.length_nil]
          omega
        rw [hA]

theorem mem_dequeAppend_self (logs : List String) (line : String) :
    line ∈ dequeAppend 500 logs line := by
  unfold dequeAppend
  have hl : (logs ++ [line]).length = logs.length + 1 := by simp
  split
  · rename_i hc
    rw [List.drop_append_of_le_length (by omega)]
    simp
  · simp


theorem start_restart_count (g : GatewayManager) (spawn : SpawnResult) (now : Nat) :
    (g.start spawn now).restart_count = g.restart_count := by
  unfold GatewayManager.start
  split
  · rfl
  · cases spawn <;> rfl

theorem stop_restart_count (g : GatewayManager) (rc : Int) :
    (g.stop rc).restart_count = g.restart_count := by
  unfold GatewayManager.stop
  split <;> rfl

theorem restart_count_succ (g : GatewayManager) (rc : Int) (spawn : SpawnResult)
    (now : Nat) : (g.restart rc spawn now).restart_count = g.restart_count + 1 := by
  unfold GatewayManager.restart
  rw [start_restart_count]
  rw [stop_restart_count]

theorem get_status_pid_none (g : GatewayManager) (now : Nat)
    (h : isLive g.process = false) : (g.get_status now).pid = none := by
  unfold GatewayManager.get_status
  cases hp : g.process with
  | none => simp
  | some p =>
      cases hr : p.returncode with
      | none =>
          rw [hp] at h
          simp only [isLive] at h
          rw [hr] at h
          simp at h
      | some rc => simp [hr]


theorem start_err_eq (g : GatewayManager) (msg : String) (now : Nat)
    (h : isLive g.process = false) :
    g.start (.err msg) now =
      { g with state := "error",
               logs := dequeAppend 500 g.logs ("Failed to start gateway: " ++ msg) } := by
  unfold GatewayManager.start
  rw [if_neg (by simp [h])]

theorem start_ok_eq (g : GatewayManager) (p : Process) (now : Nat)
    (h : isLive g.process = false) :
    g.start (.ok p) now =
      { g with process := some p, state := "running", start_time := some now } := by
  unfold GatewayManager.start
  rw [if_neg (by simp [h])]

/-- C1 (amended): for every existing document `E` and incoming document
`D` in which every secret leaf is an empty or `***`-terminated string,
provided `D` is structurally compatible with `E` (wherever `D` has a
dict, `E`'s node at the same path, if present, is also a dict),
`merge_secrets D E` is exactly the document the spec describes: every
secret-keyed masked-looking leaf reachable through dict nesting is
replaced by `E`'s value at that path (the empty string when absent) and
all other data of `D` is reproduced. -/
theorem C1_merge_restores_secrets (D E : JValue)
    (_hmask : maskedOK D = true) (hcompat : compat D E = true) :
    merge_secrets D E = specMerge D (some E) :=
  merge_eq_specMerge D E hcompat

/-- Witness for C1 at a concrete masked document and existing store. -/
theorem C1_witness :
    maskedOK (.obj (.cons "api_key" (.str "sk-real-v***") .nil)) = true ∧
    compat (.obj (.cons "api_key" (.str "sk-real-v***") .nil))
      (.obj (.cons "api_key" (.str "sk-real-value-123456") .nil)) = true ∧
    merge_secrets (.obj (.cons "api_key" (.str "sk-real-v***") .nil))
      (.obj (.cons "api_key" (.str "sk-real-value-123456") .nil)) =
      specMerge (.obj (.cons "api_key" (.str "sk-real-v***") .nil))
        (some (.obj (.cons "api_key" (.str "sk-real-value-123456") .nil))) :=
  ⟨by decide, by decide, C1_merge_restores_secrets _ _ (by decide) (by decide)⟩

/-- C1 as stated is false: with existing `{"a": 5}` and incoming
`{"a": {"api_key": "***"}}` — whose only secret leaf is the masked
placeholder — the merge keeps the literal `"***"` at `a.api_key`, while
the claim requires the empty string there (the existing document has no
value at that key). -/
theorem C1_counterexample :
    maskedOK (.obj (.cons "a" (.obj (.cons "api_key" (.str "***") .nil)) .nil)) = true ∧
    getPath (merge_secrets
        (.obj (.cons "a" (.obj (.cons "api_key" (.str "***") .nil)) .nil))
        (.obj (.cons "a" (.num 5) .nil))) ["a", "api_key"] = some (.str "***") ∧
    some (JValue.str "***") ≠ some (.str "") := by
  decide

/-- The incoming document of the C2 scenario:
`{"providers":{"anthropic":{"api_key":"sk-real-value-123456"}}}`. -/
def c2_incoming : JValue :=
  .obj (.cons "providers"
    (.obj (.cons "anthropic"
      (.obj (.cons "api_key" (.str "sk-real-value-123456") .nil)) .nil)) .nil)

/-- C2 (amended): starting from the default stored document (whose
`providers.anthropic.api_key` is the empty string), merging the incoming
document stores `"sk-real-value-123456"` verbatim, and masking the
result yields `"sk-real-***"` — the first 8 characters `"sk-real-"`
followed by the marker. -/
theorem C2_store_and_mask :
    getPath default_config ["providers", "anthropic", "api_key"] = some (.str "") ∧
    getPath (merge_secrets c2_incoming default_config)
      ["providers", "anthropic", "api_key"] = some (.str "sk-real-value-123456") ∧
    getPath (mask_secrets (merge_secrets c2_incoming default_config))
      ["providers", "anthropic", "api_key"] = some (.str "sk-real-***") := by
  decide

/-- C2 as stated is false: masking the stored result returns
`"sk-real-***"` (8 kept characters), not `"sk-real-v***"` (9 kept
characters) as the claim asserts. -/
theorem C2_counterexample :
    getPath (mask_secrets (merge_secrets c2_incoming default_config))
      ["providers", "anthropic", "api_key"] = some (.str "sk-real-***") ∧
    (JValue.str "sk-real-***") ≠ .str "sk-real-v***" := by
  decide


/-- C3: `mask_secrets` coincides, on every document, with the function
written from the spec's words — every secret-keyed non-empty string value
is replaced by `***` when its length is at most 8 and by its first 8
characters followed by `***` otherwise; every other node passes through,
dicts entry-wise and lists element-wise. -/
theorem C3_mask_matches_spec : ∀ d : JValue, mask_secrets d = specMask d :=
  mask_secrets_eq_specMask

/-- C4: the merge is full-replace outside the secret exception — the
merged dict's keys are exactly the incoming dict's keys, any key absent
from the incoming dict is absent from the result, and a non-dict incoming
value replaces the existing value verbatim. -/
theorem C4_full_replace :
    (∀ nkvs ekvs : JObj,
        merge_secrets (.obj nkvs) (.obj ekvs) = .obj (mergeEntries nkvs ekvs) ∧
        (mergeEntries nkvs ekvs).keys = nkvs.keys) ∧
    (∀ (nkvs ekvs : JObj) (k : String), nkvs.get k = none →
        (mergeEntries nkvs ekvs).get k = none) ∧
    (∀ n e : JValue, isObjV n = false → merge_secrets n e = n) := by
  refine ⟨fun nkvs ekvs => ⟨rfl, mergeEntries_keys nkvs ekvs⟩,
    fun nkvs ekvs k h => ?_, merge_secrets_nonobj⟩
  rw [mergeEntries_get, h]
  rfl

/-- Witness for C4: a key absent from the incoming dict is deleted, and a
non-dict incoming value replaces the existing one verbatim. -/
theorem C4_witness :
    (mergeEntries (.cons "x" (.str "1") .nil) (.cons "y" (.str "2") .nil)).get "y" =
      none ∧
    merge_secrets (.str "v") (.obj (.cons "y" (.str "2") .nil)) = .str "v" :=
  ⟨C4_full_replace.2.1 (.cons "x" (.str "1") .nil) (.cons "y" (.str "2") .nil) "y"
      (by decide),
   C4_full_replace.2.2 (.str "v") (.obj (.cons "y" (.str "2") .nil)) (by decide)⟩

/-- C5: the masking rule is idempotent on non-empty string values, and
`mask_secrets` is idempotent on whole documents, so `mask (mask D)` and
`mask D` agree on every secret leaf. -/
theorem C5_mask_idempotent :
    (∀ s : String, s ≠ "" → maskValue (maskValue s) = maskValue s) ∧
    (∀ d : JValue, mask_secrets (mask_secrets d) = mask_secrets d) :=
  ⟨fun s _ => maskValue_idem s, mask_secrets_idem⟩

/-- Witness for C5 on a long secret value and a concrete document. -/
theorem C5_witness :
    ("sk-real-value-123456" ≠ "" ∧
      maskValue (maskValue "sk-real-value-123456") = maskValue "sk-real-value-123456") ∧
    mask_secrets (mask_secrets (.obj (.cons "token" (.str "abc") .nil))) =
      mask_secrets (.obj (.cons "token" (.str "abc") .nil)) :=
  ⟨⟨by decide, C5_mask_idempotent.1 "sk-real-value-123456" (by decide)⟩,
   C5_mask_idempotent.2 (.obj (.cons "token" (.str "abc") .nil))⟩

/-- C6: `restart` is `stop` followed unconditionally by `start` with the
restart counter incremented in between; each invocation increments the
counter by exactly 1, and neither `stop` nor `start` ever changes it —
from every prior supervisor state. -/
theorem C6_restart_increments :
    ∀ (g : GatewayManager) (rc : Int) (spawn : SpawnResult) (now : Nat),
      (g.restart rc spawn now).restart_count = g.restart_count + 1 ∧
      g.restart rc spawn now =
        GatewayManager.start
          { g.stop rc with restart_count := (g.stop rc).restart_count + 1 } spawn now ∧
      (g.stop rc).restart_count = g.restart_count ∧
      (g.start spawn now).restart_count = g.restart_count :=
  fun g rc spawn now =>
    ⟨restart_count_succ g rc spawn now, rfl, stop_restart_count g rc,
     start_restart_count g spawn now⟩

/-- C7: the log buffer invariant and FIFO eviction — an append never
grows the buffer past 500 lines; appending 501 lines to an empty buffer
retains exactly the last 500 in insertion order (the snapshot is the
input sequence with its first line dropped), so the first appended line
is gone (when not duplicated later) and the most recently appended line
is present. -/
theorem C7_logbuffer_fifo :
    (∀ (logs : List String) (line : String), logs.length ≤ 500 →
        (dequeAppend 500 logs line).length ≤ 500) ∧
    (∀ lines : List String, lines.length = 501 →
        appendAll [] lines = lines.drop 1 ∧ (appendAll [] lines).length = 500) ∧
    (∀ (l0 : String) (rest : List String), (l0 :: rest).length = 501 →
        l0 ∉ rest → l0 ∉ appendAll [] (l0 :: rest)) ∧
    (∀ (init : List String) (lz : String), (init ++ [lz]).length = 501 →
        lz ∈ appendAll [] (init ++ [lz])) := by
  have key : ∀ lines : List String, lines.length = 501 →
      appendAll [] lines = lines.drop 1 := by
    intro lines h
    rw [appendAll_eq_drop lines [] (by simp), List.nil_append, h]
  refine ⟨dequeAppend_length_le, fun lines h => ⟨key lines h, ?_⟩,
    fun l0 rest h hnot => ?_, fun init lz h => ?_⟩
  · rw [key lines h, List.length_drop, h]
  · rw [key (l0 :: rest) h]
    simpa using hnot
  · rw [key (init ++ [lz]) h]
    have hinit : 1 ≤ init.length := by
      simp only [List.length_append, List.length_cons, List.length_nil] at h
      omega
    rw [List.drop_append_of_le_length hinit]
    simp

/-- Witness for C7: the invariant at an empty buffer, and 501 concrete
appends. -/
theorem C7_witness :
    (dequeAppend 500 [] "a").length ≤ 500 ∧
    appendAll [] ("z" :: List.replicate 500 "x") =
      ("z" :: List.replicate 500 "x").drop 1 ∧
    "z" ∉ appendAll [] ("z" :: List.replicate 500 "x") ∧
    "x" ∈ appendAll [] (List.replicate 500 "x" ++ ["x"]) :=
  ⟨C7_logbuffer_fifo.1 [] "a" (by simp),
   (C7_logbuffer_fifo.2.1 ("z" :: List.replicate 500 "x")
      (by rw [List.length_cons, List.length_replicate])).1,
   C7_logbuffer_fifo.2.2.1 "z" (List.replicate 500 "x")
     (by rw [List.length_cons, List.length_replicate])
     (fun h => absurd (List.eq_of_mem_replicate h) (by decide)),
   C7_logbuffer_fifo.2.2.2 (List.replicate 500 "x") "x"
     (by rw [List.length_append, List.length_replicate]; rfl)⟩


/-- C8: a failed spawn attempt when no live child exists puts the
supervisor in the `"error"` state, appends a human-readable failure line
to the log buffer, makes `get_status` report a null pid, and is not fatal
to the supervisor — a subsequent `start` or `restart` whose spawn
succeeds reaches `"running"`. -/
theorem C8_spawn_failure :
    ∀ (g : GatewayManager) (msg : String) (now now2 now3 : Nat) (p : Process)
      (rc : Int),
      isLive g.process = false →
      ((g.start (.err msg) now).state = "error" ∧
       (g.start (.err msg) now).logs =
          dequeAppend 500 g.logs ("Failed to start gateway: " ++ msg) ∧
       ("Failed to start gateway: " ++ msg) ∈ (g.start (.err msg) now).logs ∧
       ((g.start (.err msg) now).get_status now2).pid = none ∧
       ((g.start (.err msg) now).start (.ok p) now2).state = "running" ∧
       ((g.start (.err msg) now).restart rc (.ok p) now3).state = "running") := by
  intro g msg now now2 now3 p rc h
  have hg' := start_err_eq g msg now h
  have hproc : (g.start (.err msg) now).process = g.process := by rw [hg']
  refine ⟨by rw [hg'], by rw [hg'], ?_, ?_, ?_, ?_⟩
  · rw [hg']
    exact mem_dequeAppend_self g.logs _
  · apply get_status_pid_none
    rw [hproc]
    exact h
  · rw [start_ok_eq _ p now2 (by rw [hproc]; exact h)]
  · have hre : (g.start (.err msg) now).restart rc (.ok p) now3 =
        GatewayManager.start
          { (g.start (.err msg) now).stop rc with
              restart_count := ((g.start (.err msg) now).stop rc).restart_count + 1 }
          (.ok p) now3 := rfl
    have hstopproc : ((g.start (.err msg) now).stop rc).process = g.process := by
      unfold GatewayManager.stop
      rw [if_neg (by simp [hproc, h])]
      exact hproc
    rw [hre, start_ok_eq _ p now3 (by simpa [hstopproc] using h)]

/-- Witness for C8 from the freshly constructed supervisor. -/
theorem C8_witness :
    isLive GatewayManager.initial.process = false ∧
    (GatewayManager.initial.start (.err "No such file") 1).state = "error" ∧
    ((GatewayManager.initial.start (.err "No such file") 1).restart 0
        (.ok ⟨7, none⟩) 3).state = "running" :=
  ⟨by decide,
   (C8_spawn_failure GatewayManager.initial "No such file" 1 2 3 ⟨7, none⟩ 0
      (by decide)).1,
   (C8_spawn_failure GatewayManager.initial "No such file" 1 2 3 ⟨7, none⟩ 0
      (by decide)).2.2.2.2.2⟩

/-- C9 is violated by the code: on the single-threaded event loop a
second `start()` whose guard check runs while the first `start()` is
suspended at `await create_subprocess_exec` also passes the
no-live-process guard (the handle is only assigned after the await), so
both coroutines spawn a child — two live child processes exist at once,
with the supervisor left holding only the second handle. -/
theorem C9_two_live_children :
    runRace ⟨GatewayManager.initial, .atGuard, .atGuard, []⟩
        [(.A, ⟨101, none⟩, 5), (.B, ⟨102, none⟩, 5),
         (.A, ⟨101, none⟩, 6), (.B, ⟨102, none⟩, 7)] =
      ⟨{ process := some ⟨102, none⟩, state := "running", logs := [],
         start_time := some 7, restart_count := 0 },
       .finished, .finished, [⟨101, none⟩, ⟨102, none⟩]⟩ ∧
    ([(⟨101, none⟩ : Process), ⟨102, none⟩]).length = 2 ∧
    (∀ p ∈ ([(⟨101, none⟩ : Process), ⟨102, none⟩]), p.returncode = none) := by
  decide

/-- C10 (amended): the merge's placeholder substitution applies only when
the incoming value is a string; a secret-keyed entry whose incoming value
is not a string falls through to the ordinary recursion, and when it is
also not a dict (a number, boolean, or list) it is taken verbatim — able
to overwrite a stored real secret. A dict incoming value instead recurses
entry-wise, where nested masked secret leaves are still substituted from
the existing document. -/
theorem C10_nonstring_secret :
    ∀ (nkvs ekvs : JObj) (k : String) (v : JValue),
      k ∈ SECRET_FIELDS → isStrV v = false → nkvs.get k = some v →
      ((mergeEntries nkvs ekvs).get k =
          some (merge_secrets v ((ekvs.get k).getD (.obj .nil))) ∧
       (isObjV v = false → (mergeEntries nkvs ekvs).get k = some v)) := by
  intro nkvs ekvs k v hk hstr hget
  have hml : maskedLike v = false := maskedLike_of_nonstr v hstr
  have hcond : ¬ (k ∈ SECRET_FIELDS ∧ maskedLike v = true) := by
    intro hc
    rw [hml] at hc
    exact Bool.noConfusion hc.2
  have h1 : (mergeEntries nkvs ekvs).get k =
      some (merge_secrets v ((ekvs.get k).getD (.obj .nil))) := by
    rw [mergeEntries_get, hget, Option.map_some', if_neg hcond]
  exact ⟨h1, fun hobj => by rw [h1, merge_secrets_nonobj v _ hobj]⟩

/-- Witness for C10: the incoming number 42 under the secret key
`api_key` replaces the stored real secret verbatim. -/
theorem C10_witness :
    (mergeEntries (.cons "api_key" (.num 42) .nil)
        (.cons "api_key" (.str "real-secret") .nil)).get "api_key" =
      some (.num 42) :=
  (C10_nonstring_secret (.cons "api_key" (.num 42) .nil)
      (.cons "api_key" (.str "real-secret") .nil) "api_key" (.num 42)
      (by decide) (by decide) (by decide)).2 (by decide)

/-- C10 as stated is false for dict values: with incoming
`{"token": {"api_key": "***"}}` and existing
`{"token": {"api_key": "real-secret-value"}}`, the dict under the secret
key `token` is not taken verbatim — the nested masked leaf is substituted
from the existing document. -/
theorem C10_counterexample :
    merge_secrets (.obj (.cons "token" (.obj (.cons "api_key" (.str "***") .nil)) .nil))
        (.obj (.cons "token" (.obj (.cons "api_key" (.str "real-secret-value") .nil))
          .nil)) =
      .obj (.cons "token" (.obj (.cons "api_key" (.str "real-secret-value") .nil))
        .nil) ∧
    (JValue.obj (.cons "api_key" (.str "real-secret-value") .nil)) ≠
      .obj (.cons "api_key" (.str "***") .nil) := by
  decide

end Picoclaw
